import Mathlib

/-!
Verification of the Background_Remove bot (`src/main.py`).

The program keeps two module-level Python dicts, `user_images` and
`user_timestamps`, keyed by the Telegram user id.  We embed a Python dict
as an association list `List (Int × V)` whose operations mirror dict
semantics: assignment replaces the binding in place, `del` removes it,
`in` / subscript look the key up.  Times (`time.time()`) are embedded as
integers; the code only compares differences against the constant 600, so
only the ordered additive structure matters.  PIL images are embedded as a
record carrying the PIL `mode` and an opaque pixel payload; `convert`
changes the mode.  A Python function body with no `return` statement
returns `None`, embedded as `Unit`.  Exceptions are embedded with
`Except PyExc`.
-/

namespace BackgroundRemove

/-- A Python exception value (the code only catches `Exception` generically,
so one opaque carrier suffices). -/
inductive PyExc where
  | err (code : Nat)
deriving DecidableEq, Repr

/-- Lookup in a Python dict embedded as an association list: `d[k]` /
`k in d`. -/
def dictLookup (k : Int) : List (Int × V) → Option V
  | [] => none
  | (k', v) :: rest => if k' = k then some v else dictLookup k rest

/-- Assignment `d[k] = v` in a Python dict: replaces the existing binding in
place, otherwise appends. -/
def dictInsert (k : Int) (v : V) : List (Int × V) → List (Int × V)
  | [] => [(k, v)]
  | (k', v') :: rest =>
      if k' = k then (k, v) :: rest else (k', v') :: dictInsert k v rest

/-- Deletion `del d[k]` (total: deleting an absent key is the identity; the
code always guards `del` with `if k in d`). -/
def dictErase (k : Int) : List (Int × V) → List (Int × V)
  | [] => []
  | (k', v') :: rest =>
      if k' = k then dictErase k rest else (k', v') :: dictErase k rest

/-- PIL image modes occurring in the pipeline. -/
inductive ImageMode where
  | RGB
  | RGBA
  | L
  | P
  | LA
  | CMYK
deriving DecidableEq, Repr

/-- A PIL image: its `mode` string plus opaque pixel content. -/
structure PILImage where
  mode : ImageMode
  pixels : Nat
deriving DecidableEq, Repr

/-- PIL `Image.convert(mode)`: the result has the requested mode. -/
def PILImage.convert (img : PILImage) (m : ImageMode) : PILImage :=
  { img with mode := m }

/-- The two module-level dicts of `main.py`: `user_images` (user id to
processed image) and `user_timestamps` (user id to insertion time). -/
structure Store where
  user_images : List (Int × PILImage)
  user_timestamps : List (Int × Int)
deriving DecidableEq, Repr

/-- The initial module state: both dicts empty. -/
def emptyStore : Store :=
  { user_images := [], user_timestamps := [] }

/-- Read-only lookup of a user's processed image, as the callback handlers
do it: `if user_id not in user_images: NotFound else user_images[user_id]`. -/
def store_get (uid : Int) (st : Store) : Option PILImage :=
  dictLookup uid st.user_images

/-- One pass of the deletion loop of `cleanup_old_images`: `del` the user id
from both dicts (each `del` guarded by an `in` check in the source). -/
def erase_entry (st : Store) (uid : Int) : Store :=
  { user_images := dictErase uid st.user_images,
    user_timestamps := dictErase uid st.user_timestamps }

/-- The `to_remove` list built by `cleanup_old_images`: the user ids whose
entries satisfy `current_time - timestamp > 600`. -/
def to_remove_list (current_time : Int) (timestamps : List (Int × Int)) : List Int :=
  (timestamps.filter (fun p => current_time - p.2 > 600)).map Prod.fst

/-- Everything observable about one call of `cleanup_old_images`: the dicts
after the call, the count logged by `logger.info("Cleaned up {n} old images")`
(`none` when `to_remove` is empty, since logging is guarded by
`if to_remove:`), and the function's return value — the Python body has no
`return` statement, so it returns `None`, embedded as `Unit`. -/
structure CleanupResult where
  store : Store
  logged_count : Option Nat
  retval : Unit
deriving DecidableEq, Repr

/-- The sweep `cleanup_old_images` of `main.py` (lines 63-80): collect every
user id whose timestamp satisfies `current_time - timestamp > 600`, delete
each from both dicts, and log the count when anything was removed. -/
def cleanup_old_images (current_time : Int) (st : Store) : CleanupResult :=
  let to_remove := to_remove_list current_time st.user_timestamps
  { store := to_remove.foldl erase_entry st,
    logged_count := if to_remove.isEmpty then none else some to_remove.length,
    retval := () }

/-- The module-level state behind `get_bg_session`: the global `bg_session`
(`None` until loaded; sessions are abstract, numbered by `Nat`) together
with a count of how many times `new_session` has been invoked. -/
structure SessionState where
  bg_session : Option Nat
  load_count : Nat
deriving DecidableEq, Repr

/-- The module state at startup: `bg_session = None`, no load performed. -/
def sessionInit : SessionState :=
  { bg_session := none, load_count := 0 }

/-- One call of `get_bg_session` (lines 45-57).  The whole body runs under
`with session_lock`, so concurrent calls execute their bodies in some serial
order; this function is one such serialized body.  `loadResult` is what
`new_session` would produce for this caller if invoked: on success the
session is stored in the global, on failure the exception is logged and
re-raised and `bg_session` stays `None`.  If the global is already set,
`new_session` is not invoked at all. -/
def get_bg_session (loadResult : Except PyExc Nat) (s : SessionState) :
    SessionState × Except PyExc Nat :=
  match s.bg_session with
  | some sess => (s, Except.ok sess)
  | none =>
      match loadResult with
      | Except.ok sess =>
          ({ bg_session := some sess, load_count := s.load_count + 1 },
           Except.ok sess)
      | Except.error e => ({ s with load_count := s.load_count + 1 }, Except.error e)

/-- A sequence of `get_bg_session` calls in the serial order imposed by
`session_lock`, each with the session its own `new_session` invocation would
build; returns the final module state and each caller's result. -/
def run_acquires (loads : List (Except PyExc Nat)) (s : SessionState) :
    SessionState × List (Except PyExc Nat) :=
  match loads with
  | [] => (s, [])
  | l :: rest =>
      let step := get_bg_session l s
      let tail := run_acquires rest step.1
      (tail.1, step.2 :: tail.2)

/-- The helper `ensure_transparency` (lines 103-111): convert to RGBA unless
already RGBA.  `Image.convert` cannot fail on an in-memory PIL image, so the
`except` arm (which would return the image unchanged) is unreachable in the
embedding. -/
def ensure_transparency (image : PILImage) : PILImage :=
  if image.mode ≠ ImageMode.RGBA then image.convert ImageMode.RGBA else image

/-- The worker-side pipeline `process_image_optimized` (lines 113-140):
convert the input to RGB if needed, run `remove(rgb_image, session=...)`
(abstracted as the opaque `segment` function, since rembg is an external
collaborator), and pass the output through `ensure_transparency`. -/
def process_image_optimized (segment : PILImage → PILImage) (input_image : PILImage) :
    PILImage :=
  let rgb_image :=
    if input_image.mode ≠ ImageMode.RGB then input_image.convert ImageMode.RGB
    else input_image
  ensure_transparency (segment rgb_image)

/-- What `handle_photo` reports back to the chat. -/
inductive PhotoOutcome where
  | success (img : PILImage)
  | failureReported
deriving DecidableEq, Repr

/-- The store-affecting behavior of `handle_photo` (lines 163-243).  It first
runs `cleanup_old_images()` (at wall time `t_recv`).  `processResult` is the
outcome of the `run_in_executor(None, process_image_optimized, input_image)`
call (the download/decode steps share the same exception path).  On success
the output is stored in both dicts with timestamp `t_done`; on any exception
the handler deletes the user's entry from both dicts (each `del` guarded by
`in`) and answers with the "Processing failed" message. -/
def handle_photo (uid : Int) (processResult : Except PyExc PILImage)
    (t_recv t_done : Int) (st : Store) : PhotoOutcome × Store :=
  let st0 := (cleanup_old_images t_recv st).store
  match processResult with
  | Except.ok output_data =>
      (PhotoOutcome.success output_data,
       { user_images := dictInsert uid output_data st0.user_images,
         user_timestamps := dictInsert uid t_done st0.user_timestamps })
  | Except.error _ =>
      (PhotoOutcome.failureReported, erase_entry st0 uid)

/-- Python `str.split("_")` on the character list of the string: splits at
every occurrence of the separator and always returns at least one (possibly
empty) piece. -/
def pySplitUnderscore : List Char → List (List Char)
  | [] => [[]]
  | c :: rest =>
      match pySplitUnderscore rest with
      | [] => if c = '_' then [[], []] else [[c]]
      | s :: ss => if c = '_' then [] :: s :: ss else (c :: s) :: ss

/-- The last element of a list of pieces, as Python's `lst[-1]`.  Python's
`str.split` always returns a non-empty list, so the `[]` arm is unreachable. -/
def lastSegment : List (List Char) → List Char
  | [] => []
  | [x] => x
  | _ :: x :: rest => lastSegment (x :: rest)

/-- The numeric value of a non-empty all-digit character sequence, `none`
otherwise. -/
def digitsVal : List Char → Option Nat
  | [] => none
  | cs =>
      cs.foldl
        (fun acc c =>
          match acc with
          | none => none
          | some n => if c.isDigit then some (n * 10 + (c.toNat - 48)) else none)
        (some 0)

/-- Python `int(s)`: an optional sign followed by digits; anything else
raises `ValueError`, embedded as `none`. -/
def pyInt (cs : List Char) : Option Int :=
  match cs with
  | '-' :: rest => (digitsVal rest).map (fun n => -(n : Int))
  | '+' :: rest => (digitsVal rest).map (fun n => (n : Int))
  | _ => (digitsVal cs).map (fun n => (n : Int))

/-- How both callback handlers recover the owner id from the button payload:
`int(callback.data.split("_")[-1])`. -/
def parse_callback_owner (data : String) : Option Int :=
  pyInt (lastSegment (pySplitUnderscore data.toList))

/-- An inbound callback press: the button payload `callback.data` and the id
of the user who pressed it (`callback.from_user.id`). -/
structure Callback where
  data : String
  from_user_id : Int
deriving DecidableEq, Repr

/-- What `send_as_document` does to the chat. -/
inductive DocResult where
  | errorAnswered
  | expired
  | sent (img : PILImage)
deriving DecidableEq, Repr

/-- The "Download" callback handler `send_as_document` (lines 245-303):
parse the owner id out of `callback.data` (a parse failure raises
`ValueError`, lands in the handler's `except`, and answers the error toast);
if `user_id not in user_images`, answer "Image expired"; otherwise send
`user_images[user_id]` as a PNG document and then `del` the user's entry
from both dicts. -/
def send_as_document (callback : Callback) (st : Store) : DocResult × Store :=
  match parse_callback_owner callback.data with
  | none => (DocResult.errorAnswered, st)
  | some user_id =>
      match dictLookup user_id st.user_images with
      | none => (DocResult.expired, st)
      | some output_data => (DocResult.sent output_data, erase_entry st user_id)

/-- What `send_as_photo` does to the chat. -/
inductive PhotoPreviewResult where
  | errorAnswered
  | expired
  | previewed (img : PILImage)
deriving DecidableEq, Repr

/-- The "Quick Preview" callback handler `send_as_photo` (lines 305-348):
same owner-id parse and presence check as `send_as_document`, but the entry
is only read (sent as a compressed photo) — neither dict is mutated. -/
def send_as_photo (callback : Callback) (st : Store) : PhotoPreviewResult × Store :=
  match parse_callback_owner callback.data with
  | none => (PhotoPreviewResult.errorAnswered, st)
  | some user_id =>
      match dictLookup user_id st.user_images with
      | none => (PhotoPreviewResult.expired, st)
      | some output_data => (PhotoPreviewResult.previewed output_data, st)

/-- How `handle_document` disposes of an inbound document. -/
inductive DocumentAction where
  | rejectedNotImage
  | rejectedTooLarge
  | processed
deriving DecidableEq, Repr

/-- The admission checks of `handle_document` (lines 350-370):
`if not mime_type or not mime_type.startswith('image/')` answer "Please send
an image file"; then `if file_size > 20 * 1024 * 1024` answer "File too
large"; otherwise fall through to `handle_photo`.  (`not ""` is true in
Python and `"".startswith('image/')` is false, so an empty mime string is
rejected on either reading.) -/
def handle_document_action (mime_type : Option String) (file_size : Nat) :
    DocumentAction :=
  match mime_type with
  | none => DocumentAction.rejectedNotImage
  | some m =>
      if ¬ m.startsWith "image/" then DocumentAction.rejectedNotImage
      else if file_size > 20 * 1024 * 1024 then DocumentAction.rejectedTooLarge
      else DocumentAction.processed

/-- The full `handle_document` flow: when (and only when) the admission
checks pass, the message is handed to `handle_photo`, which is the only
place a processing job is submitted and a store entry can be created;
both rejection branches `return` before that call, leaving the dicts
untouched. -/
def handle_document (mime_type : Option String) (file_size : Nat) (uid : Int)
    (processResult : Except PyExc PILImage) (t_recv t_done : Int) (st : Store) :
    DocumentAction × Store :=
  match handle_document_action mime_type file_size with
  | DocumentAction.processed =>
      (DocumentAction.processed, (handle_photo uid processResult t_recv t_done st).2)
  | a => (a, st)

/-- The body of `periodic_cleanup`'s `while True` loop (lines 82-89) contains
no `try`/`except`: each tick awaits the sleep and then runs the sweep
directly.  `sweeps` gives, for each tick in order, the sweep's behavior on
the store it receives (an arbitrary Python action that may raise).  Because
nothing catches, a raising tick propagates its exception out of the loop and
the remaining ticks never run; the task only keeps looping while every tick
returns normally. -/
def periodic_cleanup_ticks (sweeps : List (Store → Except PyExc Store)) (st : Store) :
    Except PyExc Store :=
  match sweeps with
  | [] => Except.ok st
  | f :: rest =>
      match f st with
      | Except.ok st1 => periodic_cleanup_ticks rest st1
      | Except.error e => Except.error e

/-- Modelled from the spec: the Reaper contract says "any error during a
sweep is caught, logged, and the loop continues on the next tick" — under
that contract a raising tick would leave the store as it was and the loop
would go on.  (This catching loop exists nowhere in `src/`; it is the
behavior the spec describes, stated for comparison with
`periodic_cleanup_ticks`.) -/
def periodic_cleanup_ticks_spec (sweeps : List (Store → Except PyExc Store))
    (st : Store) : Store :=
  match sweeps with
  | [] => st
  | f :: rest =>
      match f st with
      | Except.ok st1 => periodic_cleanup_ticks_spec rest st1
      | Except.error _ => periodic_cleanup_ticks_spec rest st

/-- The store mutations the program can perform, one constructor per source
site: job completion (`handle_photo` success), job failure (`handle_photo`
except-branch), a "Download" press, a "Quick Preview" press, and a Reaper
tick's sweep. -/
inductive StoreOp where
  | photoDone (uid : Int) (img : PILImage) (t_recv t_done : Int)
  | photoFailed (uid : Int) (e : PyExc) (t_recv : Int)
  | docSent (callback : Callback)
  | photoPreviewed (callback : Callback)
  | sweep (now : Int)
deriving DecidableEq, Repr

/-- The effect of each operation on the two dicts, via the handler
embeddings above. -/
def applyOp (op : StoreOp) (st : Store) : Store :=
  match op with
  | StoreOp.photoDone uid img t_recv t_done =>
      (handle_photo uid (Except.ok img) t_recv t_done st).2
  | StoreOp.photoFailed uid e t_recv =>
      (handle_photo uid (Except.error e) t_recv 0 st).2
  | StoreOp.docSent callback => (send_as_document callback st).2
  | StoreOp.photoPreviewed callback => (send_as_photo callback st).2
  | StoreOp.sweep now => (cleanup_old_images now st).store

/-- Whether an operation is a (successful) `put` for the given owner — the
only operation that creates a `user_images` entry for that key. -/
def insertsFor (uid : Int) : StoreOp → Bool
  | StoreOp.photoDone u _ _ _ => u == uid
  | _ => false

/-- The two dicts are synchronized: a key has an image exactly when it has a
timestamp. -/
def synced (st : Store) : Prop :=
  ∀ k : Int, (dictLookup k st.user_images).isSome
    = (dictLookup k st.user_timestamps).isSome

theorem dictLookup_insert_self (k : Int) (v : V) (l : List (Int × V)) :
    dictLookup k (dictInsert k v l) = some v := by
  induction l with
  | nil => simp [dictInsert, dictLookup]
  | cons p rest ih =>
      obtain ⟨a, b⟩ := p
      by_cases h : a = k
      · simp [dictInsert, dictLookup, h]
      · simp [dictInsert, dictLookup, h, ih]

theorem dictLookup_insert_ne (k q : Int) (v : V) (l : List (Int × V)) (h : q ≠ k) :
    dictLookup q (dictInsert k v l) = dictLookup q l := by
  have hk : k ≠ q := Ne.symm h
  induction l with
  | nil => simp [dictInsert, dictLookup, hk]
  | cons p rest ih =>
      obtain ⟨a, b⟩ := p
      by_cases ha : a = k
      · subst ha
        simp [dictInsert, dictLookup, hk]
      · by_cases hq : a = q <;> simp [dictInsert, dictLookup, ha, hq, hk, h, ih]

theorem dictLookup_erase_self (k : Int) (l : List (Int × V)) :
    dictLookup k (dictErase k l) = none := by
  induction l with
  | nil => simp [dictErase, dictLookup]
  | cons p rest ih =>
      obtain ⟨a, b⟩ := p
      by_cases h : a = k
      · simp [dictErase, h, ih]
      · simp [dictErase, dictLookup, h, ih]

theorem dictLookup_erase_ne (k q : Int) (l : List (Int × V)) (h : q ≠ k) :
    dictLookup q (dictErase k l) = dictLookup q l := by
  have hk : k ≠ q := Ne.symm h
  induction l with
  | nil => simp [dictErase]
  | cons p rest ih =>
      obtain ⟨a, b⟩ := p
      by_cases ha : a = k
      · subst ha
        simp [dictErase, dictLookup, hk, ih]
      · by_cases hq : a = q <;> simp [dictErase, dictLookup, ha, hq, hk, h, ih]

theorem dictLookup_eq_some_of_mem (k : Int) (v : V) (l : List (Int × V))
    (hnodup : (l.map Prod.fst).Nodup) (hm : (k, v) ∈ l) :
    dictLookup k l = some v := by
  induction l with
  | nil => cases hm
  | cons p rest ih =>
      obtain ⟨a, b⟩ := p
      simp only [List.map_cons, List.nodup_cons] at hnodup
      rcases List.mem_cons.mp hm with heq | hmem
      · rw [Prod.mk.injEq] at heq
        simp [dictLookup, heq.1.symm, heq.2]
      · have hak : a ≠ k := by
          intro hak
          exact hnodup.1 (hak ▸ List.mem_map.mpr ⟨(k, v), hmem, rfl⟩)
        simp [dictLookup, hak, ih hnodup.2 hmem]

theorem mem_of_dictLookup_eq_some (k : Int) (v : V) (l : List (Int × V))
    (h : dictLookup k l = some v) : (k, v) ∈ l := by
  induction l with
  | nil => simp [dictLookup] at h
  | cons p rest ih =>
      obtain ⟨a, b⟩ := p
      by_cases ha : a = k
      · subst ha
        simp [dictLookup] at h
        simp [h]
      · simp [dictLookup, ha] at h
        exact List.mem_cons_of_mem _ (ih h)

theorem mem_to_remove_list (now k : Int) (ts : List (Int × Int)) :
    k ∈ to_remove_list now ts ↔ ∃ t, (k, t) ∈ ts ∧ now - t > 600 := by
  simp only [to_remove_list, List.mem_map, List.mem_filter]
  constructor
  · rintro ⟨⟨a, t⟩, ⟨hmem, hgt⟩, rfl⟩
    exact ⟨t, hmem, by simpa using hgt⟩
  · rintro ⟨t, hmem, hgt⟩
    exact ⟨(k, t), ⟨hmem, by simpa using hgt⟩, rfl⟩

theorem dictLookup_erase_none (k u : Int) (l : List (Int × V))
    (h : dictLookup k l = none) : dictLookup k (dictErase u l) = none := by
  by_cases hu : k = u
  · subst hu
    exact dictLookup_erase_self k l
  · rw [dictLookup_erase_ne u k l hu]
    exact h

theorem foldl_erase_images_none (L : List Int) (st : Store) (k : Int)
    (h : dictLookup k st.user_images = none) :
    dictLookup k (L.foldl erase_entry st).user_images = none := by
  induction L generalizing st with
  | nil => exact h
  | cons u L ih =>
      exact ih (erase_entry st u) (dictLookup_erase_none k u st.user_images h)

theorem foldl_erase_timestamps_none (L : List Int) (st : Store) (k : Int)
    (h : dictLookup k st.user_timestamps = none) :
    dictLookup k (L.foldl erase_entry st).user_timestamps = none := by
  induction L generalizing st with
  | nil => exact h
  | cons u L ih =>
      exact ih (erase_entry st u) (dictLookup_erase_none k u st.user_timestamps h)

theorem foldl_erase_lookup_of_mem (L : List Int) (st : Store) (k : Int) (h : k ∈ L) :
    dictLookup k (L.foldl erase_entry st).user_images = none ∧
    dictLookup k (L.foldl erase_entry st).user_timestamps = none := by
  induction L generalizing st with
  | nil => cases h
  | cons u L ih =>
      by_cases hk : k = u
      · subst hk
        refine ⟨foldl_erase_images_none L (erase_entry st k) k ?_,
          foldl_erase_timestamps_none L (erase_entry st k) k ?_⟩
        · exact dictLookup_erase_self k st.user_images
        · exact dictLookup_erase_self k st.user_timestamps
      · have hmem : k ∈ L := by
          rcases List.mem_cons.mp h with h1 | h1
          · exact absurd h1 hk
          · exact h1
        exact ih (erase_entry st u) hmem

theorem foldl_erase_lookup_of_not_mem (L : List Int) (st : Store) (k : Int)
    (h : k ∉ L) :
    dictLookup k (L.foldl erase_entry st).user_images = dictLookup k st.user_images ∧
    dictLookup k (L.foldl erase_entry st).user_timestamps
      = dictLookup k st.user_timestamps := by
  induction L generalizing st with
  | nil => exact ⟨rfl, rfl⟩
  | cons u L ih =>
      have hku : k ≠ u := fun hk => h (hk ▸ List.mem_cons_self u L)
      have hL : k ∉ L := fun hk => h (List.mem_cons_of_mem u hk)
      have step := ih (erase_entry st u) hL
      refine ⟨step.1.trans ?_, step.2.trans ?_⟩
      · exact dictLookup_erase_ne u k st.user_images hku
      · exact dictLookup_erase_ne u k st.user_timestamps hku

theorem synced_erase_entry (st : Store) (u : Int) (h : synced st) :
    synced (erase_entry st u) := by
  intro k
  by_cases hk : k = u
  · subst hk
    show (dictLookup k (dictErase k st.user_images)).isSome
      = (dictLookup k (dictErase k st.user_timestamps)).isSome
    rw [dictLookup_erase_self, dictLookup_erase_self]
    rfl
  · show (dictLookup k (dictErase u st.user_images)).isSome
      = (dictLookup k (dictErase u st.user_timestamps)).isSome
    rw [dictLookup_erase_ne u k st.user_images hk,
      dictLookup_erase_ne u k st.user_timestamps hk]
    exact h k

theorem synced_foldl_erase (L : List Int) (st : Store) (h : synced st) :
    synced (L.foldl erase_entry st) := by
  induction L generalizing st with
  | nil => exact h
  | cons u L ih => exact ih (erase_entry st u) (synced_erase_entry st u h)

theorem synced_cleanup (now : Int) (st : Store) (h : synced st) :
    synced (cleanup_old_images now st).store :=
  synced_foldl_erase (to_remove_list now st.user_timestamps) st h

theorem send_as_photo_store (callback : Callback) (st : Store) :
    (send_as_photo callback st).2 = st := by
  rw [send_as_photo]
  split
  · rfl
  · split <;> rfl

theorem mem_to_remove_iff (now : Int) (st : Store) (uid T : Int)
    (hnodup : (st.user_timestamps.map Prod.fst).Nodup)
    (hT : dictLookup uid st.user_timestamps = some T) :
    uid ∈ to_remove_list now st.user_timestamps ↔ now - T > 600 := by
  rw [mem_to_remove_list]
  constructor
  · rintro ⟨t, hmem, hgt⟩
    have hl := dictLookup_eq_some_of_mem uid t st.user_timestamps hnodup hmem
    rw [hT] at hl
    cases hl
    exact hgt
  · intro hgt
    exact ⟨T, mem_of_dictLookup_eq_some uid T st.user_timestamps hT, hgt⟩

theorem cleanup_lookup_char (now : Int) (st : Store) (uid T : Int)
    (hnodup : (st.user_timestamps.map Prod.fst).Nodup)
    (hT : dictLookup uid st.user_timestamps = some T) :
    dictLookup uid (cleanup_old_images now st).store.user_timestamps
      = (if now - T > 600 then none else some T) ∧
    dictLookup uid (cleanup_old_images now st).store.user_images
      = (if now - T > 600 then none else dictLookup uid st.user_images) := by
  have hmem_iff := mem_to_remove_iff now st uid T hnodup hT
  have hstore : (cleanup_old_images now st).store
      = (to_remove_list now st.user_timestamps).foldl erase_entry st := rfl
  by_cases hgt : now - T > 600
  · have hm := foldl_erase_lookup_of_mem (to_remove_list now st.user_timestamps) st uid
      (hmem_iff.mpr hgt)
    rw [hstore, if_pos hgt, if_pos hgt]
    exact ⟨hm.2, hm.1⟩
  · have hm := foldl_erase_lookup_of_not_mem (to_remove_list now st.user_timestamps) st uid
      (fun hc => hgt (hmem_iff.mp hc))
    rw [hstore, if_neg hgt, if_neg hgt]
    exact ⟨hm.2.trans hT, hm.1⟩

/-- A sample processed image and a sample store, used to instantiate the
claim theorems at concrete inputs. -/
def exImg : PILImage :=
  { mode := ImageMode.RGBA, pixels := 0 }

/-- A store holding one entry: owner `1`, inserted at time `100`. -/
def exStore1 : Store :=
  { user_images := [(1, exImg)], user_timestamps := [(1, 100)] }

/-- C1: for an entry of key `k` inserted at time `T`, a sweep at time `now`
with the hard-coded ttl of 600 seconds removes the entry iff
`now - T > 600` (strictly); after a removal `get(k)` is `NotFound`, and a
sweep with `now - T ≤ 600` leaves the entry present and retrievable
unchanged. -/
theorem ttl_eviction_iff (now T uid : Int) (st : Store)
    (hnodup : (st.user_timestamps.map Prod.fst).Nodup)
    (hT : dictLookup uid st.user_timestamps = some T) :
    (now - T > 600 →
      store_get uid (cleanup_old_images now st).store = none ∧
      dictLookup uid (cleanup_old_images now st).store.user_timestamps = none) ∧
    (now - T ≤ 600 →
      store_get uid (cleanup_old_images now st).store = store_get uid st ∧
      dictLookup uid (cleanup_old_images now st).store.user_timestamps = some T) := by
  have hc := cleanup_lookup_char now st uid T hnodup hT
  constructor
  · intro hgt
    rw [store_get, hc.2, hc.1, if_pos hgt, if_pos hgt]
    exact ⟨rfl, rfl⟩
  · intro hle
    have hgt : ¬ now - T > 600 := by omega
    rw [store_get, hc.2, hc.1, if_neg hgt, if_neg hgt]
    exact ⟨rfl, rfl⟩

/-- Witness for C1, at owner `1`, insertion time `100`, sweeps at times
`800` (stale) and anything at most `700` (fresh). -/
theorem ttl_eviction_iff_witness :
    (((800 : Int) - 100 > 600 →
      store_get 1 (cleanup_old_images 800 exStore1).store = none ∧
      dictLookup 1 (cleanup_old_images 800 exStore1).store.user_timestamps = none) ∧
    ((800 : Int) - 100 ≤ 600 →
      store_get 1 (cleanup_old_images 800 exStore1).store = store_get 1 exStore1 ∧
      dictLookup 1 (cleanup_old_images 800 exStore1).store.user_timestamps
        = some 100)) ∧
    (((700 : Int) - 100 > 600 →
      store_get 1 (cleanup_old_images 700 exStore1).store = none ∧
      dictLookup 1 (cleanup_old_images 700 exStore1).store.user_timestamps = none) ∧
    ((700 : Int) - 100 ≤ 600 →
      store_get 1 (cleanup_old_images 700 exStore1).store = store_get 1 exStore1 ∧
      dictLookup 1 (cleanup_old_images 700 exStore1).store.user_timestamps
        = some 100)) :=
  ⟨ttl_eviction_iff 800 100 1 exStore1 (by decide) (by decide),
   ttl_eviction_iff 700 100 1 exStore1 (by decide) (by decide)⟩

/-- Counterexample to C5 as stated: `cleanup_old_images` has no `return`
statement, so its return value is `None` — two invocations that remove `1`
and `0` entries respectively return the same value, so the return value
does not equal (or even determine) the removed count.  The count appears
only in the log line. -/
theorem sweep_retval_cex :
    (cleanup_old_images 1000 exStore1).retval = (cleanup_old_images 200 exStore1).retval ∧
    (cleanup_old_images 1000 exStore1).logged_count = some 1 ∧
    (cleanup_old_images 200 exStore1).logged_count = none ∧
    (cleanup_old_images 1000 exStore1).store = emptyStore ∧
    (cleanup_old_images 200 exStore1).store = exStore1 := by
  decide

/-- C5 as amended: the sweep removes exactly the entries with
`now - created_at > 600` and reports the count of removed entries in its
log line (returning `None`); when nothing is removed, nothing is logged. -/
theorem sweep_logged_count_amended (now : Int) (st : Store)
    (hnodup : (st.user_timestamps.map Prod.fst).Nodup) :
    (cleanup_old_images now st).logged_count.getD 0
      = (st.user_timestamps.filter (fun p => now - p.2 > 600)).length ∧
    ∀ uid T, dictLookup uid st.user_timestamps = some T →
      dictLookup uid (cleanup_old_images now st).store.user_timestamps
        = if now - T > 600 then none else some T := by
  constructor
  · have hlc : (cleanup_old_images now st).logged_count
        = (if (to_remove_list now st.user_timestamps).isEmpty then none
           else some (to_remove_list now st.user_timestamps).length) := rfl
    rw [hlc]
    by_cases he : (to_remove_list now st.user_timestamps).isEmpty
    · rw [if_pos he, Option.getD_none]
      have hnil : (st.user_timestamps.filter (fun p => now - p.2 > 600)).map Prod.fst
          = [] := List.isEmpty_iff.mp he
      have := congrArg List.length hnil
      simpa [to_remove_list] using this.symm
    · rw [if_neg he, Option.getD_some, to_remove_list, List.length_map]
  · intro uid T hT
    exact (cleanup_lookup_char now st uid T hnodup hT).1

/-- Witness for the amended C5, at the one-entry store swept at time
`1000` (entry of age `900`, removed and counted). -/
theorem sweep_logged_count_amended_witness :
    (cleanup_old_images 1000 exStore1).logged_count.getD 0
      = (exStore1.user_timestamps.filter (fun p => (1000 : Int) - p.2 > 600)).length ∧
    ∀ uid T, dictLookup uid exStore1.user_timestamps = some T →
      dictLookup uid (cleanup_old_images 1000 exStore1).store.user_timestamps
        = if (1000 : Int) - T > 600 then none else some T :=
  sweep_logged_count_amended 1000 exStore1 (by decide)

/-- C3: when the processing job for an owner raises, `handle_photo` answers
with the failure message and purges that owner from both dicts, so `get`
finds nothing — no partial or prior state stays visible. -/
theorem failure_discards_entry (uid : Int) (e : PyExc) (t_recv t_done : Int)
    (st : Store) :
    (handle_photo uid (Except.error e) t_recv t_done st).1
      = PhotoOutcome.failureReported ∧
    store_get uid (handle_photo uid (Except.error e) t_recv t_done st).2 = none ∧
    dictLookup uid
      (handle_photo uid (Except.error e) t_recv t_done st).2.user_timestamps
      = none := by
  refine ⟨rfl, ?_, ?_⟩
  · exact dictLookup_erase_self uid (cleanup_old_images t_recv st).store.user_images
  · exact dictLookup_erase_self uid (cleanup_old_images t_recv st).store.user_timestamps

theorem ensure_transparency_mode (image : PILImage) :
    (ensure_transparency image).mode = ImageMode.RGBA := by
  by_cases h : image.mode = ImageMode.RGBA <;>
    simp [ensure_transparency, PILImage.convert, h]

/-- C6: whatever the input image's mode and whatever the segmenter returns,
the pipeline output is in RGBA mode, and that output is exactly the value
stored for the owner on job completion. -/
theorem stored_payload_rgba (segment : PILImage → PILImage) (img : PILImage)
    (uid : Int) (t_recv t_done : Int) (st : Store) :
    (process_image_optimized segment img).mode = ImageMode.RGBA ∧
    store_get uid
      (handle_photo uid (Except.ok (process_image_optimized segment img))
        t_recv t_done st).2
      = some (process_image_optimized segment img) := by
  constructor
  · rw [process_image_optimized]
    exact ensure_transparency_mode _
  · exact dictLookup_insert_self uid (process_image_optimized segment img)
      (cleanup_old_images t_recv st).store.user_images

/-- C7: an inbound document whose declared size exceeds 20 MB (20 * 1024 *
1024 bytes, strictly) is rejected before `handle_photo` runs: the handler
answers a rejection message, never reaches processing, and both dicts are
untouched. -/
theorem oversize_document_rejected (mime_type : Option String) (file_size : Nat)
    (uid : Int) (processResult : Except PyExc PILImage) (t_recv t_done : Int)
    (st : Store) (hsize : file_size > 20 * 1024 * 1024) :
    (handle_document mime_type file_size uid processResult t_recv t_done st).1
      ≠ DocumentAction.processed ∧
    (handle_document mime_type file_size uid processResult t_recv t_done st).2
      = st := by
  have ha : handle_document_action mime_type file_size ≠ DocumentAction.processed := by
    cases mime_type with
    | none => simp [handle_document_action]
    | some m =>
        by_cases hs : m.startsWith "image/" <;>
          simp [handle_document_action, hs, hsize]
  cases hact : handle_document_action mime_type file_size with
  | rejectedNotImage => simp [handle_document, hact]
  | rejectedTooLarge => simp [handle_document, hact]
  | processed => exact absurd hact ha

/-- Witness for C7: a well-typed PNG document one byte over the 20 MB
limit is rejected and the store stays empty. -/
theorem oversize_document_rejected_witness :
    (handle_document (some "image/png") 20971521 1 (Except.ok exImg) 0 0
        emptyStore).1 ≠ DocumentAction.processed ∧
    (handle_document (some "image/png") 20971521 1 (Except.ok exImg) 0 0
        emptyStore).2 = emptyStore :=
  oversize_document_rejected (some "image/png") 20971521 1 (Except.ok exImg) 0 0
    emptyStore (by decide)

/-- Counterexample to C4 as stated: `periodic_cleanup`'s loop body has no
exception handler, so a tick whose sweep raises ends the loop with that
exception — the next tick (here one that would return normally) never runs.
The spec-modelled catching loop, by contrast, would continue and finish
normally. -/
theorem reaper_uncaught_error_cex :
    periodic_cleanup_ticks
      [fun _ => Except.error (PyExc.err 0), fun s => Except.ok s] emptyStore
      = Except.error (PyExc.err 0) ∧
    periodic_cleanup_ticks_spec
      [fun _ => Except.error (PyExc.err 0), fun s => Except.ok s] emptyStore
      = emptyStore :=
  ⟨rfl, rfl⟩

/-- C4 as amended: the loop runs tick after tick only while every sweep
returns normally; an exception raised during a sweep is not caught — it
propagates out of the loop, terminating the cleanup task, and no later tick
runs (the result is that error no matter what ticks would have followed). -/
theorem reaper_error_terminates_loop :
    (∀ (fs gs : List (Store → Except PyExc Store)) (e : PyExc) (st : Store),
        (∀ f ∈ fs, ∀ s : Store, ∃ s1, f s = Except.ok s1) →
        periodic_cleanup_ticks (fs ++ (fun _ => Except.error e) :: gs) st
          = Except.error e) ∧
    (∀ (fs : List (Store → Except PyExc Store)) (st : Store),
        (∀ f ∈ fs, ∀ s : Store, ∃ s1, f s = Except.ok s1) →
        ∃ s1, periodic_cleanup_ticks fs st = Except.ok s1) := by
  constructor
  · intro fs gs e
    induction fs with
    | nil =>
        intro st _
        rfl
    | cons f fs ih =>
        intro st hok
        obtain ⟨s1, hs1⟩ := hok f (List.mem_cons_self f fs) st
        have hstep : periodic_cleanup_ticks
            ((f :: fs) ++ (fun _ => Except.error e) :: gs) st
            = periodic_cleanup_ticks (fs ++ (fun _ => Except.error e) :: gs) s1 := by
          simp only [List.cons_append, periodic_cleanup_ticks, hs1, List.append_eq]
        rw [hstep]
        exact ih s1 (fun g hg s => hok g (List.mem_cons_of_mem f hg) s)
  · intro fs
    induction fs with
    | nil =>
        intro st _
        exact ⟨st, rfl⟩
    | cons f fs ih =>
        intro st hok
        obtain ⟨s1, hs1⟩ := hok f (List.mem_cons_self f fs) st
        have hstep : periodic_cleanup_ticks (f :: fs) st
            = periodic_cleanup_ticks fs s1 := by
          simp only [periodic_cleanup_ticks, hs1]
        rw [hstep]
        exact ih s1 (fun g hg s => hok g (List.mem_cons_of_mem f hg) s)

/-- Witness for the amended C4: a first-tick error is the loop's result. -/
theorem reaper_error_terminates_loop_witness :
    periodic_cleanup_ticks [fun _ => Except.error (PyExc.err 1)] emptyStore
      = Except.error (PyExc.err 1) :=
  reaper_error_terminates_loop.1 [] [] (PyExc.err 1) emptyStore (by simp)

theorem run_acquires_initialized (v : Nat) (loads : List (Except PyExc Nat))
    (s : SessionState) (h : s.bg_session = some v) :
    run_acquires loads s = (s, loads.map (fun _ => Except.ok v)) := by
  induction loads with
  | nil => simp [run_acquires]
  | cons l rest ih =>
      have hstep : get_bg_session l s = (s, Except.ok v) := by
        simp [get_bg_session, h]
      simp [run_acquires, hstep, ih]

/-- C8: N calls of `get_bg_session` from a cold start — serialized by
`session_lock` — invoke `new_session` exactly once (by the first caller,
whose load produces session `v`); every caller, whatever its own load
would have produced, receives that same session `v`. -/
theorem single_flight_init (v : Nat) (rest : List (Except PyExc Nat)) :
    (run_acquires (Except.ok v :: rest) sessionInit).1.load_count = 1 ∧
    (run_acquires (Except.ok v :: rest) sessionInit).1.bg_session = some v ∧
    ∀ r ∈ (run_acquires (Except.ok v :: rest) sessionInit).2, r = Except.ok v := by
  have hfirst : get_bg_session (Except.ok v) sessionInit
      = ({ bg_session := some v, load_count := 1 }, Except.ok v) := rfl
  have hrest := run_acquires_initialized v rest
    { bg_session := some v, load_count := 1 } rfl
  have hrun : run_acquires (Except.ok v :: rest) sessionInit
      = ({ bg_session := some v, load_count := 1 },
         Except.ok v :: rest.map (fun _ => Except.ok v)) := by
    simp [run_acquires, hfirst, hrest]
  rw [hrun]
  refine ⟨rfl, rfl, ?_⟩
  intro r hr
  rcases List.mem_cons.mp hr with h | h
  · exact h
  · obtain ⟨l, _, rfl⟩ := List.mem_map.mp h
    rfl

theorem send_as_document_found (cb : Callback) (st : Store) (uid : Int)
    (img : PILImage) (hparse : parse_callback_owner cb.data = some uid)
    (hl : dictLookup uid st.user_images = some img) :
    send_as_document cb st = (DocResult.sent img, erase_entry st uid) := by
  simp only [send_as_document, hparse, hl]

theorem send_as_document_missing (cb : Callback) (st : Store) (uid : Int)
    (hparse : parse_callback_owner cb.data = some uid)
    (hl : dictLookup uid st.user_images = none) :
    send_as_document cb st = (DocResult.expired, st) := by
  simp only [send_as_document, hparse, hl]

theorem send_as_photo_found (cb : Callback) (st : Store) (uid : Int)
    (img : PILImage) (hparse : parse_callback_owner cb.data = some uid)
    (hl : dictLookup uid st.user_images = some img) :
    send_as_photo cb st = (PhotoPreviewResult.previewed img, st) := by
  simp only [send_as_photo, hparse, hl]

theorem send_as_photo_missing (cb : Callback) (st : Store) (uid : Int)
    (hparse : parse_callback_owner cb.data = some uid)
    (hl : dictLookup uid st.user_images = none) :
    send_as_photo cb st = (PhotoPreviewResult.expired, st) := by
  simp only [send_as_photo, hparse, hl]

theorem store_get_applyOp_none (op : StoreOp) (st : Store) (uid : Int)
    (h : store_get uid st = none) (hop : insertsFor uid op = false) :
    store_get uid (applyOp op st) = none := by
  cases op with
  | photoDone u img t1 t2 =>
      have hne : uid ≠ u := by
        intro he
        subst he
        simp [insertsFor] at hop
      show dictLookup uid
        (dictInsert u img (cleanup_old_images t1 st).store.user_images) = none
      rw [dictLookup_insert_ne u uid img _ hne]
      exact foldl_erase_images_none _ st uid h
  | photoFailed u e t1 =>
      show dictLookup uid
        (dictErase u (cleanup_old_images t1 st).store.user_images) = none
      exact dictLookup_erase_none uid u _ (foldl_erase_images_none _ st uid h)
  | docSent cb =>
      show dictLookup uid (send_as_document cb st).2.user_images = none
      rw [send_as_document]
      split
      · exact h
      · split
        · exact h
        · exact dictLookup_erase_none uid _ _ h
  | photoPreviewed cb =>
      show dictLookup uid (send_as_photo cb st).2.user_images = none
      rw [send_as_photo_store]
      exact h
  | sweep now => exact foldl_erase_images_none _ st uid h

theorem store_get_foldl_none (ops : List StoreOp) (uid : Int) :
    ∀ s : Store, store_get uid s = none →
      (∀ op ∈ ops, insertsFor uid op = false) →
      store_get uid (ops.foldl (fun s op => applyOp op s) s) = none := by
  induction ops with
  | nil =>
      intro s hs _
      exact hs
  | cons op ops ih =>
      intro s hs hops
      exact ih (applyOp op s)
        (store_get_applyOp_none op s uid hs (hops op (List.mem_cons_self op ops)))
        (fun o ho => hops o (List.mem_cons_of_mem op ho))

/-- C2: after a job completion stores image `img` for owner `uid`, a
"Download" press whose payload parses to `uid` sends exactly `img` and
removes the entry; from then on, the entry is gone — a repeated download
answers "expired" and changes nothing, a preview answers "expired", and
`get` stays `NotFound` across any further operations that are not a new
job completion for `uid`. -/
theorem take_single_consumption (uid : Int) (img : PILImage) (t_recv t_done : Int)
    (st : Store) (cb : Callback)
    (hparse : parse_callback_owner cb.data = some uid) :
    (send_as_document cb (applyOp (StoreOp.photoDone uid img t_recv t_done) st)).1
      = DocResult.sent img ∧
    store_get uid
      (send_as_document cb (applyOp (StoreOp.photoDone uid img t_recv t_done) st)).2
      = none ∧
    (send_as_document cb
      (send_as_document cb (applyOp (StoreOp.photoDone uid img t_recv t_done) st)).2).1
      = DocResult.expired ∧
    (send_as_document cb
      (send_as_document cb (applyOp (StoreOp.photoDone uid img t_recv t_done) st)).2).2
      = (send_as_document cb (applyOp (StoreOp.photoDone uid img t_recv t_done) st)).2 ∧
    (send_as_photo cb
      (send_as_document cb (applyOp (StoreOp.photoDone uid img t_recv t_done) st)).2).1
      = PhotoPreviewResult.expired ∧
    ∀ ops : List StoreOp, (∀ op ∈ ops, insertsFor uid op = false) →
      store_get uid (ops.foldl (fun s op => applyOp op s)
        (send_as_document cb (applyOp (StoreOp.photoDone uid img t_recv t_done) st)).2)
        = none := by
  have hl1 : dictLookup uid
      (applyOp (StoreOp.photoDone uid img t_recv t_done) st).user_images = some img :=
    dictLookup_insert_self uid img (cleanup_old_images t_recv st).store.user_images
  have hdoc : send_as_document cb (applyOp (StoreOp.photoDone uid img t_recv t_done) st)
      = (DocResult.sent img,
         erase_entry (applyOp (StoreOp.photoDone uid img t_recv t_done) st) uid) :=
    send_as_document_found cb _ uid img hparse hl1
  have hl2 : dictLookup uid
      (send_as_document cb (applyOp (StoreOp.photoDone uid img t_recv t_done) st)).2.user_images
      = none := by
    rw [hdoc]
    exact dictLookup_erase_self uid _
  have hdoc2 : send_as_document cb
      (send_as_document cb (applyOp (StoreOp.photoDone uid img t_recv t_done) st)).2
      = (DocResult.expired,
         (send_as_document cb (applyOp (StoreOp.photoDone uid img t_recv t_done) st)).2) :=
    send_as_document_missing cb _ uid hparse hl2
  have hphoto2 : send_as_photo cb
      (send_as_document cb (applyOp (StoreOp.photoDone uid img t_recv t_done) st)).2
      = (PhotoPreviewResult.expired,
         (send_as_document cb (applyOp (StoreOp.photoDone uid img t_recv t_done) st)).2) :=
    send_as_photo_missing cb _ uid hparse hl2
  refine ⟨by rw [hdoc], hl2, by rw [hdoc2], by rw [hdoc2], by rw [hphoto2], ?_⟩
  intro ops hops
  exact store_get_foldl_none ops uid _ hl2 hops

/-- Witness for C2: owner `7`, a press of `send_doc_7` by user `99`. -/
theorem take_single_consumption_witness :
    (send_as_document { data := "send_doc_7", from_user_id := 99 }
      (applyOp (StoreOp.photoDone 7 exImg 0 0) emptyStore)).1
      = DocResult.sent exImg :=
  (take_single_consumption 7 exImg 0 0 emptyStore
    { data := "send_doc_7", from_user_id := 99 } (by decide)).1

/-- C9: the key sets of `user_images` and `user_timestamps` coincide in the
initial state and are preserved by every store-mutating operation of the
program — job completion, job failure, download, preview, and sweep. -/
theorem store_maps_synced :
    synced emptyStore ∧
    ∀ (op : StoreOp) (st : Store), synced st → synced (applyOp op st) := by
  constructor
  · intro k
    rfl
  · intro op st h
    cases op with
    | photoDone u img t1 t2 =>
        intro k
        by_cases hk : k = u
        · subst hk
          show (dictLookup k
              (dictInsert k img (cleanup_old_images t1 st).store.user_images)).isSome
            = (dictLookup k
              (dictInsert k t2 (cleanup_old_images t1 st).store.user_timestamps)).isSome
          rw [dictLookup_insert_self, dictLookup_insert_self]
          rfl
        · show (dictLookup k
              (dictInsert u img (cleanup_old_images t1 st).store.user_images)).isSome
            = (dictLookup k
              (dictInsert u t2 (cleanup_old_images t1 st).store.user_timestamps)).isSome
          rw [dictLookup_insert_ne u k img _ hk, dictLookup_insert_ne u k t2 _ hk]
          exact synced_cleanup t1 st h k
    | photoFailed u e t1 =>
        exact synced_erase_entry _ u (synced_cleanup t1 st h)
    | docSent cb =>
        show synced (send_as_document cb st).2
        rw [send_as_document]
        split
        · exact h
        · split
          · exact h
          · exact synced_erase_entry st _ h
    | photoPreviewed cb =>
        show synced (send_as_photo cb st).2
        rw [send_as_photo_store]
        exact h
    | sweep now => exact synced_cleanup now st h

/-- Witness for C9: a job completion on the (synchronized) empty store
leaves the two dicts synchronized. -/
theorem store_maps_synced_witness :
    synced (applyOp (StoreOp.photoDone 5 exImg 0 0) emptyStore) :=
  store_maps_synced.2 (StoreOp.photoDone 5 exImg 0 0) emptyStore
    store_maps_synced.1

/-- A store holding one entry for owner `7`, for instantiating C10. -/
def exStore7 : Store :=
  { user_images := [(7, exImg)], user_timestamps := [(7, 0)] }

/-- C10: both callback handlers select the entry solely from the owner id
parsed out of the payload string — the identity of the presser plays no
role: two presses of the same button by different users behave identically,
and whenever the payload parses to `k`, it is owner `k`'s entry that is
previewed or (for download) delivered and consumed. -/
theorem callback_owner_from_payload (d : String) (p1 p2 : Int) (st : Store)
    (k : Int) (hparse : parse_callback_owner d = some k) :
    send_as_document { data := d, from_user_id := p1 } st
      = send_as_document { data := d, from_user_id := p2 } st ∧
    send_as_photo { data := d, from_user_id := p1 } st
      = send_as_photo { data := d, from_user_id := p2 } st ∧
    (∀ img, store_get k st = some img →
      (send_as_document { data := d, from_user_id := p1 } st).1
        = DocResult.sent img ∧
      (send_as_document { data := d, from_user_id := p1 } st).2 = erase_entry st k ∧
      (send_as_photo { data := d, from_user_id := p1 } st).1
        = PhotoPreviewResult.previewed img) ∧
    (store_get k st = none →
      (send_as_document { data := d, from_user_id := p1 } st).1
        = DocResult.expired ∧
      (send_as_photo { data := d, from_user_id := p1 } st).1
        = PhotoPreviewResult.expired) := by
  refine ⟨rfl, rfl, ?_, ?_⟩
  · intro img himg
    have hl : dictLookup k st.user_images = some img := himg
    have hdoc : send_as_document { data := d, from_user_id := p1 } st
        = (DocResult.sent img, erase_entry st k) :=
      send_as_document_found { data := d, from_user_id := p1 } st k img hparse hl
    have hphoto : send_as_photo { data := d, from_user_id := p1 } st
        = (PhotoPreviewResult.previewed img, st) :=
      send_as_photo_found { data := d, from_user_id := p1 } st k img hparse hl
    exact ⟨by rw [hdoc], by rw [hdoc], by rw [hphoto]⟩
  · intro hnone
    have hl : dictLookup k st.user_images = none := hnone
    have hdoc : send_as_document { data := d, from_user_id := p1 } st
        = (DocResult.expired, st) :=
      send_as_document_missing { data := d, from_user_id := p1 } st k hparse hl
    have hphoto : send_as_photo { data := d, from_user_id := p1 } st
        = (PhotoPreviewResult.expired, st) :=
      send_as_photo_missing { data := d, from_user_id := p1 } st k hparse hl
    exact ⟨by rw [hdoc], by rw [hphoto]⟩

/-- Witness for C10: whoever presses the `send_doc_7` button (user `1` or
user `2`), owner `7`'s stored image is the one delivered. -/
theorem callback_owner_from_payload_witness :
    send_as_document { data := "send_doc_7", from_user_id := 1 } exStore7
      = send_as_document { data := "send_doc_7", from_user_id := 2 } exStore7 ∧
    (send_as_document { data := "send_doc_7", from_user_id := 1 } exStore7).1
      = DocResult.sent exImg :=
  ⟨(callback_owner_from_payload "send_doc_7" 1 2 exStore7 7 (by decide)).1,
   ((callback_owner_from_payload "send_doc_7" 1 2 exStore7 7 (by decide)).2.2.1
     exImg (by decide)).1⟩

end BackgroundRemove
